import Mathlib

/-!
Shallow embedding of the logtui core: the network registry and cache
subsystem of src/lib/config.js and the streaming scanner loop of
src/lib/scanner.js (re-exported through src/lib/index.js).

JavaScript string-keyed objects are modelled as association lists kept in
insertion order.  Filesystem and network effects are modelled by explicit
inputs: the state of the cache file, and the outcome of the single
discovery request.  Wall-clock readings are explicit rational inputs.
-/

namespace Logtui

/-- A JS object with string keys, as an association list in insertion
order.  Property assignment overwrites the first matching key in place and
appends a fresh key at the end, matching JS property-update semantics. -/
def objSet {α : Type} : List (String × α) → String → α → List (String × α)
  | [], k, v => [(k, v)]
  | p :: rest, k, v => if p.1 = k then (k, v) :: rest else p :: objSet rest k v

/-- Property read on a JS object. -/
def objGet? {α : Type} : List (String × α) → String → Option α
  | [], _ => none
  | p :: rest, k => if p.1 = k then some p.2 else objGet? rest k

theorem objGet?_objSet_self {α : Type} (m : List (String × α)) (k : String) (v : α) :
    objGet? (objSet m k v) k = some v := by
  induction m with
  | nil => simp [objSet, objGet?]
  | cons p rest ih =>
    by_cases h : p.1 = k
    · simp [objSet, objGet?, h]
    · simp [objSet, objGet?, h, ih]

theorem objGet?_objSet_ne {α : Type} (m : List (String × α)) (k : String) (v : α)
    (k' : String) (h : k' ≠ k) : objGet? (objSet m k v) k' = objGet? m k' := by
  have hk : ¬ k = k' := fun hh => h hh.symm
  induction m with
  | nil => simp [objSet, objGet?, hk]
  | cons p rest ih =>
    by_cases hp : p.1 = k
    · subst hp
      simp [objSet, objGet?, hk]
    · simp [objSet, objGet?, hp, ih]

theorem objGet?_mem {α : Type} (m : List (String × α)) (k : String) (v : α)
    (h : objGet? m k = some v) : (k, v) ∈ m := by
  induction m with
  | nil => simp [objGet?] at h
  | cons p rest ih =>
    by_cases hk : p.1 = k
    · simp only [objGet?, if_pos hk] at h
      have hp : p = (k, v) := by
        obtain ⟨p1, p2⟩ := p
        simp_all
      rw [← hp]
      exact List.mem_cons_self p rest
    · simp only [objGet?, if_neg hk] at h
      exact List.mem_cons_of_mem _ (ih h)

theorem objGet?_objSet_cases {α : Type} (m : List (String × α)) (k : String) (w : α)
    (t : String) (v : α) (h : objGet? (objSet m k w) t = some v) :
    v = w ∨ objGet? m t = some v := by
  by_cases ht : t = k
  · subst ht
    rw [objGet?_objSet_self] at h
    exact Or.inl (Option.some.inj h).symm
  · rw [objGet?_objSet_ne _ _ _ _ ht] at h
    exact Or.inr h

/-! ## Network registry (src/lib/config.js) -/

/-- The name → endpoint-URL mapping. -/
abbrev NetMap := List (String × String)

/-- config.js line 18: the built-in default network set. -/
def DEFAULT_NETWORKS : NetMap :=
  [("eth", "http://eth.hypersync.xyz"),
   ("arbitrum", "http://arbitrum.hypersync.xyz"),
   ("optimism", "http://optimism.hypersync.xyz"),
   ("base", "http://base.hypersync.xyz"),
   ("polygon", "http://polygon.hypersync.xyz")]

/-- The observable state of the cache file: absent, present but
unparsable, or present with a parsed name → URL object. -/
inductive CacheFile where
  | missing
  | corrupt
  | valid (m : NetMap)

/-- config.js lines 36-48 (loadNetworksFromCache): a readable, parsable
cache file yields its contents; a missing file, or any read/parse error
(caught by the try block), yields DEFAULT_NETWORKS.  The function never
throws. -/
def loadNetworksFromCache : CacheFile → NetMap
  | CacheFile.valid m => m
  | _ => DEFAULT_NETWORKS

/-- One record of the directory-discovery response. -/
structure ApiNetwork where
  name : String
  ecosystem : String

/-- config.js lines 90-100: records not tagged "evm" are skipped; the rest
become name → URL pairs through the fixed URL template. -/
def processApiNetworks (records : List ApiNetwork) : NetMap :=
  records.foldl
    (fun acc r =>
      if r.ecosystem = "evm" then
        objSet acc r.name ("http://" ++ r.name ++ ".hypersync.xyz")
      else acc)
    []

/-- Outcome of the single discovery request: failure covers transport
errors, a non-ok HTTP status, and an unparsable body (all reach the catch
block of fetchNetworks). -/
inductive FetchOutcome where
  | failure
  | success (records : List ApiNetwork)

/-- The module-level mutable state of config.js: the NETWORKS object and
the cache file. -/
structure RegState where
  networks : NetMap
  cache : CacheFile

/-- config.js lines 69-118 (fetchNetworks).  The cache write on success is
modelled as succeeding (a failed write is caught and only warns). -/
def fetchNetworks (forceRefresh : Bool) (outcome : FetchOutcome) (s : RegState) :
    NetMap × RegState :=
  if forceRefresh = false ∧
      (loadNetworksFromCache s.cache).length > DEFAULT_NETWORKS.length then
    let cached := loadNetworksFromCache s.cache
    (cached, { s with networks := cached })
  else
    match outcome with
    | FetchOutcome.success records =>
      let result := processApiNetworks records
      (result, { networks := result, cache := CacheFile.valid result })
    | FetchOutcome.failure =>
      let cached := loadNetworksFromCache s.cache
      (cached, { s with networks := cached })

/-- config.js lines 26-27 and 120-128: NETWORKS starts as a copy of the
defaults, then the cache is loaded at module load and replaces NETWORKS
when non-empty. -/
def initialRegState (c : CacheFile) : RegState :=
  let cached := loadNetworksFromCache c
  { networks := if cached.length > 0 then cached else DEFAULT_NETWORKS, cache := c }

/-- What the try block of fetchNetworks produces once discovery is
attempted: the processed directory records on success, the cache fallback
of the catch block on failure. -/
def discoveryResult (outcome : FetchOutcome) (s : RegState) : NetMap :=
  match outcome with
  | FetchOutcome.success records => processApiNetworks records
  | FetchOutcome.failure => loadNetworksFromCache s.cache

/-- config.js lines 167-178 (getNetworkUrl): throws when the property
lookup is falsy (absent key, or an empty-string URL). -/
def getNetworkUrl (networks : NetMap) (name : String) : Except String String :=
  match objGet? networks name with
  | some url =>
    if url = "" then
      Except.error ("Network " ++ name ++ " not supported")
    else Except.ok url
  | none => Except.error ("Network " ++ name ++ " not supported")

/-- Whether getNetworkUrl succeeds. -/
def resolveOk (networks : NetMap) (name : String) : Bool :=
  match getNetworkUrl networks name with
  | Except.ok _ => true
  | Except.error _ => false

/-! ## Claims about the registry -/

/-- C1 (counterexample): "eth" is in the built-in default set, yet after a
successful live discovery whose result lacks "eth" (here a single evm
record named "gnosis"), the wholesale-replaced snapshot makes resolve
fail.  So resolve does not succeed for default names regardless of
discovery outcome. -/
theorem resolve_default_after_discovery_cex :
    "eth" ∈ DEFAULT_NETWORKS.map Prod.fst ∧
    resolveOk (fetchNetworks true (FetchOutcome.success [⟨"gnosis", "evm"⟩])
        (initialRegState CacheFile.missing)).2.networks "eth" = false := by
  decide

/-- C1 (amended): resolve succeeds for every name of the built-in default
set on the defaults themselves, on the snapshot loaded at module start
when the cache file is missing or corrupt, and after a failed discovery in
that state; a successful discovery (or a larger cache) wholesale-replaces
the snapshot and may drop default names. -/
theorem resolve_defaults_ok_without_discovery (name : String) (c : CacheFile) (force : Bool)
    (hname : name ∈ DEFAULT_NETWORKS.map Prod.fst)
    (hc : c = CacheFile.missing ∨ c = CacheFile.corrupt) :
    resolveOk DEFAULT_NETWORKS name = true ∧
    resolveOk (initialRegState c).networks name = true ∧
    resolveOk (fetchNetworks force FetchOutcome.failure (initialRegState c)).2.networks
      name = true := by
  have hres : resolveOk DEFAULT_NETWORKS name = true := by
    simp only [DEFAULT_NETWORKS, List.map_cons, List.map_nil, List.mem_cons,
      List.not_mem_nil, or_false] at hname
    rcases hname with h | h | h | h | h <;> subst h <;> decide
  have hnets : (initialRegState c).networks = DEFAULT_NETWORKS := by
    rcases hc with h | h <;> subst h <;> rfl
  have hfetch : (fetchNetworks force FetchOutcome.failure (initialRegState c)).2.networks
      = DEFAULT_NETWORKS := by
    rcases hc with h | h <;> subst h <;> cases force <;> rfl
  exact ⟨hres, by rw [hnets]; exact hres, by rw [hfetch]; exact hres⟩

/-- C1 witness: the amended statement evaluated at name "eth", a missing
cache and a forced refresh. -/
theorem resolve_defaults_ok_witness :
    ("eth" ∈ DEFAULT_NETWORKS.map Prod.fst ∧
      (CacheFile.missing = CacheFile.missing ∨ CacheFile.missing = CacheFile.corrupt)) ∧
    (resolveOk DEFAULT_NETWORKS "eth" = true ∧
      resolveOk (initialRegState CacheFile.missing).networks "eth" = true ∧
      resolveOk (fetchNetworks true FetchOutcome.failure
        (initialRegState CacheFile.missing)).2.networks "eth" = true) :=
  ⟨⟨by decide, Or.inl rfl⟩,
   resolve_defaults_ok_without_discovery "eth" CacheFile.missing true (by decide) (Or.inl rfl)⟩

/-- A registry state whose in-memory snapshot was populated by a prior
successful discovery of two evm networks. -/
def populatedState : RegState :=
  (fetchNetworks true (FetchOutcome.success [⟨"foo", "evm"⟩, ⟨"bar", "evm"⟩])
    (initialRegState CacheFile.missing)).2

/-- C2 (counterexample): the in-memory snapshot is populated (by a prior
successful discovery this process), yet a later refresh with force = false
does not return that snapshot: its cache (two entries) is not strictly
larger than the defaults, so the code attempts live discovery and returns
the new discovery result.  Step (1) of the claim does not exist in the
code. -/
theorem fetchNetworks_ignores_memory_cex :
    populatedState.networks ≠ [] ∧
    (fetchNetworks false (FetchOutcome.success [⟨"zzz", "evm"⟩]) populatedState).1
      ≠ populatedState.networks := by
  decide

/-- C2 (amended): with force = false, fetchNetworks returns the persisted
cache when it has strictly more entries than the built-in defaults, and
otherwise attempts live discovery (returning its processed result on
success and the cache/defaults fallback on failure); the in-memory
snapshot is never consulted.  With force = true it always attempts live
discovery first. -/
theorem fetchNetworks_cache_or_discovery (outcome : FetchOutcome) (s : RegState) :
    ((loadNetworksFromCache s.cache).length > DEFAULT_NETWORKS.length →
      (fetchNetworks false outcome s).1 = loadNetworksFromCache s.cache) ∧
    (¬ (loadNetworksFromCache s.cache).length > DEFAULT_NETWORKS.length →
      (fetchNetworks false outcome s).1 = discoveryResult outcome s) ∧
    (fetchNetworks true outcome s).1 = discoveryResult outcome s := by
  refine ⟨fun h => ?_, fun h => ?_, ?_⟩
  · unfold fetchNetworks
    rw [if_pos ⟨rfl, h⟩]
  · unfold fetchNetworks
    rw [if_neg (fun hh => h hh.2)]
    cases outcome <;> rfl
  · unfold fetchNetworks
    rw [if_neg (fun hh => by simpa using hh.1)]
    cases outcome <;> rfl

/-- C2 witness: the amended statement evaluated on a missing cache and a
failed discovery, where the discovery-attempt branch applies. -/
theorem fetchNetworks_cache_or_discovery_witness :
    ¬ (loadNetworksFromCache (initialRegState CacheFile.missing).cache).length
        > DEFAULT_NETWORKS.length ∧
    (fetchNetworks false FetchOutcome.failure (initialRegState CacheFile.missing)).1
      = discoveryResult FetchOutcome.failure (initialRegState CacheFile.missing) :=
  ⟨by decide,
   (fetchNetworks_cache_or_discovery FetchOutcome.failure
      (initialRegState CacheFile.missing)).2.1 (by decide)⟩

/-- C7 (counterexample): reading a missing or corrupt cache does not yield
an empty mapping: it yields the five-entry built-in default set. -/
theorem loadCache_missing_not_empty_cex :
    loadNetworksFromCache CacheFile.missing ≠ ([] : NetMap) ∧
    loadNetworksFromCache CacheFile.corrupt ≠ ([] : NetMap) ∧
    loadNetworksFromCache CacheFile.missing = DEFAULT_NETWORKS := by
  decide

/-- C7 (amended): reading the cache when the file is missing or contains
corrupt JSON yields the built-in default mapping and never raises (the
embedding is a total function: every error path of the source is caught
and falls through to the default return). -/
theorem loadCache_missing_or_corrupt_defaults (c : CacheFile)
    (h : c = CacheFile.missing ∨ c = CacheFile.corrupt) :
    loadNetworksFromCache c = DEFAULT_NETWORKS := by
  rcases h with h | h <;> subst h <;> rfl

/-- C7 witness: the amended statement at the missing-file case. -/
theorem loadCache_defaults_witness :
    (CacheFile.missing = CacheFile.missing ∨ CacheFile.missing = CacheFile.corrupt) ∧
    loadNetworksFromCache CacheFile.missing = DEFAULT_NETWORKS :=
  ⟨Or.inl rfl, loadCache_missing_or_corrupt_defaults CacheFile.missing (Or.inl rfl)⟩

/-! ## Streaming scanner (src/lib/scanner.js) -/

/-- The eventCounts object: keys "Total", "Unknown" and one key per
configured event name, each mapped to a running count. -/
abbrev EC := List (String × Nat)

/-- Numeric property read with the JS fallback to 0 used by the counting
code. -/
def getNat (m : EC) (k : String) : Nat := (objGet? m k).getD 0

/-- The increment pattern of the hot loop:
eventCounts[k] = (eventCounts[k] or 0) + 1. -/
def bump (m : EC) (k : String) : EC := objSet m k (getNat m k + 1)

/-- The sum of every counter other than Total (the per-name counters
together with Unknown). -/
def sumExceptTotal (m : EC) : Nat :=
  (m.map (fun p => if p.1 = "Total" then 0 else p.2)).sum

theorem getNat_bump_self (m : EC) (k : String) : getNat (bump m k) k = getNat m k + 1 := by
  simp [bump, getNat, objGet?_objSet_self]

theorem getNat_bump_ne (m : EC) (k k' : String) (h : k' ≠ k) :
    getNat (bump m k) k' = getNat m k' := by
  simp [bump, getNat, objGet?_objSet_ne m k _ k' h]

theorem sumExceptTotal_objSet (m : EC) (k : String) (v : Nat) (hk : ¬ k = "Total") :
    sumExceptTotal (objSet m k v) + getNat m k = sumExceptTotal m + v := by
  induction m with
  | nil => simp [objSet, sumExceptTotal, getNat, objGet?, hk]
  | cons p rest ih =>
    by_cases h : p.1 = k
    · subst h
      simp [objSet, sumExceptTotal, getNat, objGet?, hk]
      omega
    · simp only [objSet, if_neg h, sumExceptTotal, List.map_cons, List.sum_cons, getNat,
        objGet?, if_neg h] at ih ⊢
      omega

theorem sumExceptTotal_objSet_Total (m : EC) (v : Nat) :
    sumExceptTotal (objSet m "Total" v) = sumExceptTotal m := by
  induction m with
  | nil => simp [objSet, sumExceptTotal]
  | cons p rest ih =>
    by_cases h : p.1 = "Total"
    · simp [objSet, sumExceptTotal, h]
    · simp only [objSet, if_neg h, sumExceptTotal, List.map_cons, List.sum_cons] at ih ⊢
      omega

theorem sumExceptTotal_bump (m : EC) (k : String) (h : ¬ k = "Total") :
    sumExceptTotal (bump m k) = sumExceptTotal m + 1 := by
  have := sumExceptTotal_objSet m k (getNat m k + 1) h
  unfold bump
  omega

theorem sumExceptTotal_bump_Total (m : EC) :
    sumExceptTotal (bump m "Total") = sumExceptTotal m :=
  sumExceptTotal_objSet_Total m _

/-- The counting invariant: Total equals the sum of all other counters. -/
def countsInv (m : EC) : Prop := getNat m "Total" = sumExceptTotal m

theorem countsInv_double_bump (m : EC) (k : String) (hk : ¬ k = "Total")
    (h : countsInv m) : countsInv (bump (bump m "Total") k) := by
  unfold countsInv at h ⊢
  rw [getNat_bump_ne _ k "Total" (fun hh => hk hh.symm), getNat_bump_self,
    sumExceptTotal_bump _ k hk, sumExceptTotal_bump_Total]
  omega

/-- One log record as selected by the query field selection: it may or may
not carry a topics array; a falsy first topic is modelled as "". -/
structure LogRecord where
  topics : Option (List String)

/-- scanner.js line 594: the record is unclassifiable when topics is
absent, not an array (folded into absence), empty, or has a falsy first
element. -/
def topicsBad (l : LogRecord) : Bool :=
  match l.topics with
  | none => true
  | some [] => true
  | some (t :: _) => t = ""

/-- scanner.js line 600: topic0ToName[topic0] with the falsy fallback to
"Unknown". -/
def classify (t2n : List (String × String)) (topic0 : String) : String :=
  match objGet? t2n topic0 with
  | some n => if n = "" then "Unknown" else n
  | none => "Unknown"

/-- scanner.js lines 589-607: processing of a single entry of
res.data.logs (a null entry is skipped before any counting). -/
def processLog (t2n : List (String × String)) (m : EC) : Option LogRecord → EC
  | none => m
  | some l =>
    if topicsBad l then bump (bump m "Total") "Unknown"
    else
      if classify t2n ((l.topics.getD []).headD "") = "Unknown" then
        bump (bump m "Total") "Unknown"
      else
        bump (bump m "Total") (classify t2n ((l.topics.getD []).headD ""))

/-- scanner.js lines 582-607: a batch without a usable logs array counts
nothing; otherwise each entry is processed in order. -/
def processLogs (t2n : List (String × String)) (m : EC) :
    Option (List (Option LogRecord)) → EC
  | none => m
  | some ls => ls.foldl (processLog t2n) m

/-- One receive from the stream: null (the end-of-stream sentinel) or a
response object whose nextBlock may be absent. -/
inductive Response where
  | tip
  | batch (nextBlock : Option Nat) (logs : Option (List (Option LogRecord)))

/-- A received response together with the performance.now() reading of
that loop iteration. -/
structure TimedResponse where
  res : Response
  now : ℚ

/-- What one loop iteration hands to the presentation layer. -/
inductive IterEvent where
  | warnMissingNext
  | stats (progress : ℚ) (counts : EC) (eps : ℚ)
  | completed (progress : ℚ)

/-- scanner.js line 646: min(nextBlock / height, 1), with Math.min
written out as a comparison.  For height = 0 the JS division of the
(necessarily positive) nextBlock yields +Infinity and the min yields 1,
modelled by the explicit zero-height case. -/
def progressOf (height n : Nat) : ℚ :=
  if height = 0 then 1
  else if (n : ℚ) / (height : ℚ) ≤ 1 then (n : ℚ) / (height : ℚ) else 1

/-- scanner.js line 642: elapsed seconds floored at 0.1. -/
def elapsedSeconds (startTime now : ℚ) : ℚ := max ((now - startTime) / 1000) (1 / 10)

/-- scanner.js line 643: Total divided by the floored elapsed seconds. -/
def eventsPerSecond (total : Nat) (startTime now : ℚ) : ℚ :=
  (total : ℚ) / elapsedSeconds startTime now

/-- The loop-carried scanner state: the query cursor, the counters, and
whether the sentinel has been seen (the break out of the while loop). -/
structure ScanState where
  fromBlock : Nat
  counts : EC
  complete : Bool

/-- scanner.js lines 560-691, the while loop, driven by the list of
received responses.  A falsy nextBlock only warns and continues; the
sentinel forces progress 1 and breaks; otherwise the batch is counted, the
cursor advances, and the iteration reports progress and throughput. -/
def runScan (t2n : List (String × String)) (height : Nat) (startTime : ℚ) :
    ScanState → List TimedResponse → ScanState × List IterEvent
  | st, [] => (st, [])
  | st, tr :: rs =>
    match tr.res with
    | Response.tip => ({ st with complete := true }, [IterEvent.completed 1])
    | Response.batch nb logs =>
      if nb.getD 0 = 0 then
        let r := runScan t2n height startTime st rs
        (r.1, IterEvent.warnMissingNext :: r.2)
      else
        let counts1 := processLogs t2n st.counts logs
        let st1 : ScanState :=
          { fromBlock := nb.getD 0, counts := counts1, complete := st.complete }
        let r := runScan t2n height startTime st1 rs
        (r.1,
         IterEvent.stats (progressOf height (nb.getD 0)) counts1
           (eventsPerSecond (getNat counts1 "Total") startTime tr.now) :: r.2)

/-- The progress values the display receives, in order. -/
def reportedProgress : List IterEvent → List ℚ
  | [] => []
  | IterEvent.warnMissingNext :: evs => reportedProgress evs
  | IterEvent.stats p _ _ :: evs => p :: reportedProgress evs
  | IterEvent.completed p :: evs => p :: reportedProgress evs

/-- The nextBlock cursors of the batches the loop actually processes
(truthy nextBlock, up to the sentinel). -/
def scanNBs : List TimedResponse → List Nat
  | [] => []
  | tr :: rs =>
    match tr.res with
    | Response.tip => []
    | Response.batch nb _ => if nb.getD 0 = 0 then scanNBs rs else nb.getD 0 :: scanNBs rs

/-- Whether the sentinel occurs in the input (the loop then terminates
through the break). -/
def reachedTip : List TimedResponse → Bool
  | [] => false
  | tr :: rs =>
    match tr.res with
    | Response.tip => true
    | Response.batch _ _ => reachedTip rs

/-- scanner.js lines 174-179: display name of a signature, the text
before its first parenthesis (the first segment of the JS
sig.split of the open-parenthesis delimiter). -/
def eventName0 (sig : String) : String :=
  String.mk (sig.data.takeWhile (fun c => c != Char.ofNat 40))

/-- scanner.js lines 165-179: the counters start at Total = 0, Unknown = 0
and one zero entry per configured signature name. -/
def initCounts (sigs : List String) : EC :=
  sigs.foldl (fun m sig => objSet m (eventName0 sig) 0) [("Total", 0), ("Unknown", 0)]

/-- scanner.js lines 171-178: the identifier → display-name map, with the
signature hash left abstract (keccak256 of the external viem library). -/
def buildT2N (hash : String → String) (sigs : List String) : List (String × String) :=
  sigs.foldl (fun m sig => objSet m (hash sig) (eventName0 sig)) []

/-- The scan state at stream start: cursor 0, fresh counters. -/
def initState (sigs : List String) : ScanState :=
  { fromBlock := 0, counts := initCounts sigs, complete := false }

/-! ## Invariant lemmas for the counters -/

theorem classify_ne_Total (t2n : List (String × String))
    (hT : ∀ t v, objGet? t2n t = some v → v ≠ "Total") (t0 : String) :
    ¬ classify t2n t0 = "Total" := by
  unfold classify
  cases hg : objGet? t2n t0 with
  | none => decide
  | some n =>
    by_cases hn : n = ""
    · simp [hn]
    · simpa [hn] using hT t0 n hg

theorem countsInv_processLog (t2n : List (String × String))
    (hT : ∀ t v, objGet? t2n t = some v → v ≠ "Total") (m : EC)
    (h : countsInv m) (log : Option LogRecord) : countsInv (processLog t2n m log) := by
  cases log with
  | none => exact h
  | some l =>
    show countsInv
      (if topicsBad l then bump (bump m "Total") "Unknown"
       else
         if classify t2n ((l.topics.getD []).headD "") = "Unknown" then
           bump (bump m "Total") "Unknown"
         else bump (bump m "Total") (classify t2n ((l.topics.getD []).headD "")))
    by_cases hb : topicsBad l
    · rw [if_pos hb]
      exact countsInv_double_bump m "Unknown" (by decide) h
    · rw [if_neg hb]
      by_cases hu : classify t2n ((l.topics.getD []).headD "") = "Unknown"
      · rw [if_pos hu]
        exact countsInv_double_bump m "Unknown" (by decide) h
      · rw [if_neg hu]
        exact countsInv_double_bump m _ (classify_ne_Total t2n hT _) h

theorem countsInv_foldl (t2n : List (String × String))
    (hT : ∀ t v, objGet? t2n t = some v → v ≠ "Total") :
    ∀ (ls : List (Option LogRecord)) (m : EC), countsInv m →
      countsInv (ls.foldl (processLog t2n) m)
  | [], _, h => h
  | a :: ls, m, h =>
    countsInv_foldl t2n hT ls _ (countsInv_processLog t2n hT m h a)

theorem countsInv_processLogs (t2n : List (String × String))
    (hT : ∀ t v, objGet? t2n t = some v → v ≠ "Total") (m : EC)
    (h : countsInv m) (logs : Option (List (Option LogRecord))) :
    countsInv (processLogs t2n m logs) := by
  cases logs with
  | none => exact h
  | some ls => exact countsInv_foldl t2n hT ls m h

theorem countsInv_runScan (t2n : List (String × String))
    (hT : ∀ t v, objGet? t2n t = some v → v ≠ "Total")
    (height : Nat) (s0 : ℚ) (inputs : List TimedResponse) :
    ∀ st : ScanState, countsInv st.counts →
      countsInv ((runScan t2n height s0 st inputs).1.counts) := by
  induction inputs with
  | nil => intro st h; simpa [runScan] using h
  | cons tr rs ih =>
    intro st h
    obtain ⟨res, now⟩ := tr
    cases res with
    | tip => simpa [runScan] using h
    | batch nb logs =>
      by_cases h0 : nb.getD 0 = 0
      · simpa [runScan, h0] using ih st h
      · simpa [runScan, h0] using
          ih { fromBlock := nb.getD 0, counts := processLogs t2n st.counts logs,
               complete := st.complete }
            (countsInv_processLogs t2n hT st.counts h logs)

/-- All counter values are zero. -/
def allZero (m : EC) : Prop := ∀ p ∈ m, p.2 = 0

theorem allZero_objSet (m : EC) (k : String) (h : allZero m) : allZero (objSet m k 0) := by
  induction m with
  | nil =>
    intro p hp
    simp only [objSet, List.mem_singleton] at hp
    rw [hp]
  | cons q rest ih =>
    by_cases hq : q.1 = k
    · intro p hp
      rw [objSet, if_pos hq] at hp
      rcases List.mem_cons.mp hp with hp | hp
      · rw [hp]
      · exact h p (List.mem_cons_of_mem q hp)
    · intro p hp
      rw [objSet, if_neg hq] at hp
      rcases List.mem_cons.mp hp with hp | hp
      · rw [hp]; exact h q (List.mem_cons_self q rest)
      · exact ih (fun r hr => h r (List.mem_cons_of_mem q hr)) p hp

theorem allZero_initCounts_aux (sigs : List String) :
    ∀ acc : EC, allZero acc →
      allZero (sigs.foldl (fun m sig => objSet m (eventName0 sig) 0) acc) := by
  induction sigs with
  | nil => intro acc h; exact h
  | cons s rest ih => intro acc h; exact ih _ (allZero_objSet acc (eventName0 s) h)

theorem allZero_initCounts (sigs : List String) : allZero (initCounts sigs) := by
  refine allZero_initCounts_aux sigs [("Total", 0), ("Unknown", 0)] ?_
  intro p hp
  rcases List.mem_cons.mp hp with hp | hp
  · rw [hp]
  · simp only [List.mem_singleton] at hp
    rw [hp]

theorem getNat_allZero (m : EC) (h : allZero m) (k : String) : getNat m k = 0 := by
  unfold getNat
  cases hg : objGet? m k with
  | none => rfl
  | some v =>
    have := h _ (objGet?_mem m k v hg)
    simpa using this

theorem sumExceptTotal_allZero (m : EC) (h : allZero m) : sumExceptTotal m = 0 := by
  induction m with
  | nil => rfl
  | cons p rest ih =>
    have hp := h p (List.mem_cons_self p rest)
    have ht := ih (fun q hq => h q (List.mem_cons_of_mem p hq))
    simp only [sumExceptTotal, List.map_cons, List.sum_cons] at ht ⊢
    rw [ht, hp]
    split <;> rfl

theorem countsInv_initCounts (sigs : List String) : countsInv (initCounts sigs) := by
  have h := allZero_initCounts sigs
  unfold countsInv
  rw [getNat_allZero _ h, sumExceptTotal_allZero _ h]

/-- Every display name stored in the identifier map comes from a
configured signature. -/
theorem buildT2N_ne_Total (hash : String → String) (sigs : List String)
    (hT : ∀ sig ∈ sigs, eventName0 sig ≠ "Total") :
    ∀ t v, objGet? (buildT2N hash sigs) t = some v → v ≠ "Total" := by
  suffices haux : ∀ (l : List String) (acc : List (String × String)),
      (∀ t v, objGet? acc t = some v → v ≠ "Total") →
      (∀ sig ∈ l, eventName0 sig ≠ "Total") →
      ∀ t v, objGet? (l.foldl (fun m sig => objSet m (hash sig) (eventName0 sig)) acc) t
          = some v → v ≠ "Total" by
    exact haux sigs [] (fun t v h => by simp [objGet?] at h) hT
  intro l
  induction l with
  | nil => intro acc hacc _ t v h; exact hacc t v h
  | cons s rest ih =>
    intro acc hacc hsig t v h
    refine ih _ ?_ (fun g hg => hsig g (List.mem_cons_of_mem _ hg)) t v h
    intro t' v' h'
    rcases objGet?_objSet_cases _ _ _ _ _ h' with rfl | h'
    · exact hsig s (List.mem_cons_self _ _)
    · exact hacc _ _ h'

/-! ## Claims about the scanner -/

/-- C3 (confirmed): for every configured signature set (whose derived
display names avoid the reserved counter key "Total" — the text before a
signature's first parenthesis is an event name, never the literal
"Total"), every abstract signature hash, every height and every sequence
of received batches, the final counters satisfy: Total equals the sum of
all per-name counters including Unknown.  Quantifying over all input
sequences covers the state after every processed batch, since every
prefix of a batch sequence is itself a batch sequence. -/
theorem total_eq_sum_counters (sigs : List String) (hash : String → String)
    (hT : ∀ sig ∈ sigs, eventName0 sig ≠ "Total")
    (height : Nat) (s0 : ℚ) (inputs : List TimedResponse) :
    getNat ((runScan (buildT2N hash sigs) height s0 (initState sigs) inputs).1.counts)
        "Total"
      = sumExceptTotal
          ((runScan (buildT2N hash sigs) height s0 (initState sigs) inputs).1.counts) :=
  countsInv_runScan (buildT2N hash sigs) (buildT2N_ne_Total hash sigs hT) height s0
    inputs (initState sigs) (countsInv_initCounts sigs)

/-- A small concrete batch sequence for evaluating the counter invariant:
one batch carrying a hit, a null record and an empty-topics record,
then the sentinel. -/
def invInputs : List TimedResponse :=
  [⟨Response.batch (some 3)
      (some [some ⟨some ["Transfer(address,address,uint256)"]⟩, none, some ⟨some []⟩]), 2⟩,
   ⟨Response.tip, 3⟩]

/-- C3 witness: the invariant evaluated for the ERC-20 Transfer signature
(with the identity as the abstract hash) on a concrete batch sequence. -/
theorem total_eq_sum_counters_witness :
    (∀ sig ∈ ["Transfer(address,address,uint256)"], eventName0 sig ≠ "Total") ∧
    getNat ((runScan (buildT2N (fun s => s) ["Transfer(address,address,uint256)"]) 5 0
        (initState ["Transfer(address,address,uint256)"]) invInputs).1.counts) "Total"
      = sumExceptTotal
          ((runScan (buildT2N (fun s => s) ["Transfer(address,address,uint256)"]) 5 0
            (initState ["Transfer(address,address,uint256)"]) invInputs).1.counts) :=
  ⟨by decide,
   total_eq_sum_counters ["Transfer(address,address,uint256)"] (fun s => s) (by decide)
     5 0 invInputs⟩

/-- C4 (confirmed): on the end-of-stream sentinel the loop reports
progress exactly 1, marks the scan complete and stops consuming; in
particular, a sentinel received as the very first response with height 0
completes the scan with reported progress [1] and all counters still 0. -/
theorem tip_completes_with_progress_one :
    (∀ (t2n : List (String × String)) (height : Nat) (s0 : ℚ) (st : ScanState) (t : ℚ)
        (rs : List TimedResponse),
      runScan t2n height s0 st (⟨Response.tip, t⟩ :: rs)
        = ({ st with complete := true }, [IterEvent.completed 1])) ∧
    (∀ (sigs : List String) (hash : String → String) (t : ℚ),
      (runScan (buildT2N hash sigs) 0 0 (initState sigs) [⟨Response.tip, t⟩]).1.complete
          = true ∧
      reportedProgress
          (runScan (buildT2N hash sigs) 0 0 (initState sigs) [⟨Response.tip, t⟩]).2 = [1] ∧
      ∀ k, getNat
          (runScan (buildT2N hash sigs) 0 0 (initState sigs) [⟨Response.tip, t⟩]).1.counts
          k = 0) := by
  constructor
  · intro t2n height s0 st t rs
    rfl
  · intro sigs hash t
    refine ⟨rfl, rfl, ?_⟩
    intro k
    have hc : (runScan (buildT2N hash sigs) 0 0 (initState sigs)
        [⟨Response.tip, t⟩]).1.counts = initCounts sigs := rfl
    rw [hc]
    exact getNat_allZero _ (allZero_initCounts sigs) k

/-- C6 (confirmed): a response whose nextBlock is absent is discarded with
a warning: no record is counted, the cursor does not advance (the whole
state is untouched), and the loop continues with the remaining
responses. -/
theorem missing_nextBlock_skipped (t2n : List (String × String)) (height : Nat) (s0 : ℚ)
    (st : ScanState) (logs : Option (List (Option LogRecord))) (t : ℚ)
    (rs : List TimedResponse) :
    runScan t2n height s0 st (⟨Response.batch none logs, t⟩ :: rs)
      = ((runScan t2n height s0 st rs).1,
         IterEvent.warnMissingNext :: (runScan t2n height s0 st rs).2) := rfl

/-- C10 (confirmed): the nextBlock guard is a falsiness check, so a batch
whose cursor is literally 0 is treated identically to a batch missing the
field: warned, not counted, cursor not advanced, loop continues. -/
theorem zero_nextBlock_treated_missing (t2n : List (String × String)) (height : Nat)
    (s0 : ℚ) (st : ScanState) (logs : Option (List (Option LogRecord))) (t : ℚ)
    (rs : List TimedResponse) :
    runScan t2n height s0 st (⟨Response.batch (some 0) logs, t⟩ :: rs)
      = runScan t2n height s0 st (⟨Response.batch none logs, t⟩ :: rs) ∧
    runScan t2n height s0 st (⟨Response.batch (some 0) logs, t⟩ :: rs)
      = ((runScan t2n height s0 st rs).1,
         IterEvent.warnMissingNext :: (runScan t2n height s0 st rs).2) := ⟨rfl, rfl⟩

/-- C8 (confirmed): a record whose topics are absent, empty or start with
a falsy element increments Unknown by exactly 1 and Total by exactly 1 and
leaves every other counter unchanged. -/
theorem bad_topics_counts_unknown (t2n : List (String × String)) (m : EC) (l : LogRecord)
    (h : topicsBad l = true) :
    getNat (processLog t2n m (some l)) "Unknown" = getNat m "Unknown" + 1 ∧
    getNat (processLog t2n m (some l)) "Total" = getNat m "Total" + 1 ∧
    ∀ k, k ≠ "Unknown" → k ≠ "Total" → getNat (processLog t2n m (some l)) k = getNat m k := by
  have hp : processLog t2n m (some l) = bump (bump m "Total") "Unknown" := by
    show (if topicsBad l then bump (bump m "Total") "Unknown" else _) = _
    rw [if_pos h]
  rw [hp]
  refine ⟨?_, ?_, ?_⟩
  · rw [getNat_bump_self, getNat_bump_ne _ _ _ (by decide)]
  · rw [getNat_bump_ne _ _ _ (by decide), getNat_bump_self]
  · intro k hk1 hk2
    rw [getNat_bump_ne _ _ _ hk1, getNat_bump_ne _ _ _ hk2]

/-- C8 witness: the frame property evaluated on a record with an empty
topics array against the ERC-20 Transfer counter set. -/
theorem bad_topics_counts_unknown_witness :
    topicsBad ⟨some []⟩ = true ∧
    getNat (processLog [] (initCounts ["Transfer(address,address,uint256)"])
        (some ⟨some []⟩)) "Unknown"
      = getNat (initCounts ["Transfer(address,address,uint256)"]) "Unknown" + 1 ∧
    getNat (processLog [] (initCounts ["Transfer(address,address,uint256)"])
        (some ⟨some []⟩)) "Total"
      = getNat (initCounts ["Transfer(address,address,uint256)"]) "Total" + 1 ∧
    getNat (processLog [] (initCounts ["Transfer(address,address,uint256)"])
        (some ⟨some []⟩)) "Transfer"
      = getNat (initCounts ["Transfer(address,address,uint256)"]) "Transfer" :=
  ⟨rfl,
   (bad_topics_counts_unknown [] (initCounts ["Transfer(address,address,uint256)"])
      ⟨some []⟩ rfl).1,
   (bad_topics_counts_unknown [] (initCounts ["Transfer(address,address,uint256)"])
      ⟨some []⟩ rfl).2.1,
   (bad_topics_counts_unknown [] (initCounts ["Transfer(address,address,uint256)"])
      ⟨some []⟩ rfl).2.2 "Transfer" (by decide) (by decide)⟩

/-- C9 (confirmed): the elapsed-seconds divisor is floored at the positive
epsilon 0.1, so the throughput division is never by zero, and on every
processed batch the emitted statistics recompute throughput as the current
Total divided by the floored wall-clock elapsed time of that iteration. -/
theorem throughput_floored_divisor (startTime now : ℚ) (total : Nat) :
    (1 / 10 : ℚ) ≤ elapsedSeconds startTime now ∧
    eventsPerSecond total startTime now * elapsedSeconds startTime now = (total : ℚ) ∧
    (∀ (t2n : List (String × String)) (height : Nat) (st : ScanState)
        (logs : Option (List (Option LogRecord))) (rs : List TimedResponse) (n : Nat),
      n ≠ 0 →
      ((runScan t2n height startTime st (⟨Response.batch (some n) logs, now⟩ :: rs)).2).head?
        = some (IterEvent.stats (progressOf height n) (processLogs t2n st.counts logs)
            (eventsPerSecond (getNat (processLogs t2n st.counts logs) "Total")
              startTime now))) := by
  have heps : (1 / 10 : ℚ) ≤ elapsedSeconds startTime now := le_max_right _ _
  have hne : elapsedSeconds startTime now ≠ 0 := by
    have : (0 : ℚ) < elapsedSeconds startTime now := lt_of_lt_of_le (by norm_num) heps
    exact ne_of_gt this
  refine ⟨heps, div_mul_cancel₀ _ hne, ?_⟩
  intro t2n height st logs rs n hn
  simp [runScan, hn]

/-! ## Progress reporting -/

theorem progressOf_le_one (height n : Nat) : progressOf height n ≤ 1 := by
  unfold progressOf
  split
  · exact le_refl 1
  · split
    · next hle => exact hle
    · exact le_refl 1

theorem progressOf_mono (height : Nat) {a b : Nat} (h : a ≤ b) :
    progressOf height a ≤ progressOf height b := by
  unfold progressOf
  by_cases hh : height = 0
  · rw [if_pos hh, if_pos hh]
  · have hpos : (0 : ℚ) < (height : ℚ) := by
      exact_mod_cast Nat.pos_of_ne_zero hh
    have hdiv : (a : ℚ) / (height : ℚ) ≤ (b : ℚ) / (height : ℚ) := by
      rw [div_eq_mul_inv, div_eq_mul_inv]
      refine mul_le_mul_of_nonneg_right ?_ (inv_nonneg.mpr hpos.le)
      exact_mod_cast h
    rw [if_neg hh, if_neg hh]
    by_cases ha : (a : ℚ) / (height : ℚ) ≤ 1 <;>
      by_cases hb : (b : ℚ) / (height : ℚ) ≤ 1
    · rw [if_pos ha, if_pos hb]; exact hdiv
    · rw [if_pos ha, if_neg hb]; exact ha
    · rw [if_neg ha, if_pos hb]; linarith
    · rw [if_neg ha, if_neg hb]

/-- The progress values a scan reports are exactly the processed batch
cursors scaled by the height, followed by the forced 1 of the sentinel
when it is reached. -/
theorem reported_runScan (t2n : List (String × String)) (height : Nat) (s0 : ℚ)
    (inputs : List TimedResponse) :
    ∀ st : ScanState,
      reportedProgress (runScan t2n height s0 st inputs).2
        = (scanNBs inputs).map (progressOf height)
            ++ (if reachedTip inputs then [1] else []) := by
  induction inputs with
  | nil => intro st; simp [runScan, reportedProgress, scanNBs, reachedTip]
  | cons tr rs ih =>
    intro st
    obtain ⟨res, now⟩ := tr
    cases res with
    | tip => simp [runScan, reportedProgress, scanNBs, reachedTip]
    | batch nb logs =>
      by_cases h0 : nb.getD 0 = 0
      · simp [runScan, reportedProgress, scanNBs, reachedTip, h0, ih st]
      · simp [runScan, reportedProgress, scanNBs, reachedTip, h0, ih]

/-- A chain of values at most 1 stays a chain when a final 1 (or nothing)
is appended. -/
theorem chain_le_append_tip (l : List ℚ) (h1 : ∀ x ∈ l, x ≤ 1)
    (hc : List.Chain' (· ≤ ·) l) (t : List ℚ) (ht : t = [] ∨ t = [1]) :
    List.Chain' (· ≤ ·) (l ++ t) := by
  induction l with
  | nil =>
    rcases ht with rfl | rfl
    · simp
    · simp
  | cons a l ih =>
    rw [List.cons_append, List.chain'_cons']
    refine ⟨?_, ih (fun x hx => h1 x (List.mem_cons_of_mem a hx))
      ((List.chain'_cons'.mp hc).2)⟩
    intro y hy
    cases l with
    | nil =>
      rcases ht with rfl | rfl
      · simp at hy
      · simp only [List.nil_append, List.head?_cons, Option.mem_def,
          Option.some.injEq] at hy
        rw [← hy]
        exact h1 a (List.mem_cons_self a [])
    | cons b l' =>
      simp only [List.cons_append, List.head?_cons, Option.mem_def,
        Option.some.injEq] at hy
      rw [← hy]
      exact (List.chain'_cons.mp hc).1

/-- C5 (amended): every reported progress value is clamped to at most 1,
and the reported progress sequence is monotonically non-decreasing
whenever the cursors of the processed batches are non-decreasing (the
code recomputes progress from the raw batch cursor, so monotonicity
relies on the remote cursors being monotone). -/
theorem progress_clamped_and_monotone_of_cursor_monotone
    (t2n : List (String × String)) (height : Nat) (s0 : ℚ) (st : ScanState) :
    (∀ inputs : List TimedResponse,
      ∀ p ∈ reportedProgress (runScan t2n height s0 st inputs).2, p ≤ 1) ∧
    (∀ inputs : List TimedResponse,
      List.Chain' (· ≤ ·) (scanNBs inputs) →
      List.Chain' (· ≤ ·) (reportedProgress (runScan t2n height s0 st inputs).2)) := by
  constructor
  · intro inputs p hp
    rw [reported_runScan t2n height s0 inputs st] at hp
    rcases List.mem_append.mp hp with hp | hp
    · rcases List.mem_map.mp hp with ⟨n, _, rfl⟩
      exact progressOf_le_one height n
    · split at hp
      · simp only [List.mem_singleton] at hp
        rw [hp]
      · simp at hp
  · intro inputs hmono
    rw [reported_runScan t2n height s0 inputs st]
    refine chain_le_append_tip _ ?_ ?_ _ ?_
    · intro x hx
      rcases List.mem_map.mp hx with ⟨n, _, rfl⟩
      exact progressOf_le_one height n
    · exact (List.chain'_map _).mpr
        (hmono.imp (fun a b hab => progressOf_mono height hab))
    · cases h : reachedTip inputs <;> simp

/-- A batch sequence whose cursors go backwards (50 then 10). -/
def decreasingInputs : List TimedResponse :=
  [⟨Response.batch (some 50) none, 1⟩, ⟨Response.batch (some 10) none, 2⟩]

/-- C5 (counterexample): the code enforces no monotonicity: a scan of
height 100 receiving cursors 50 then 10 reports progress 1/2 followed by
1/10, which is strictly decreasing.  The clamp to 1 holds; the
unconditional monotonicity claim does not. -/
theorem progress_not_monotone_cex :
    reportedProgress (runScan [] 100 0 (initState []) decreasingInputs).2
        = [(1 : ℚ) / 2, 1 / 10] ∧
    ¬ List.Chain' (· ≤ ·)
        (reportedProgress (runScan [] 100 0 (initState []) decreasingInputs).2) := by
  have hstep : reportedProgress (runScan [] 100 0 (initState []) decreasingInputs).2
      = [progressOf 100 50, progressOf 100 10] := rfl
  have h50 : progressOf 100 50 = 1 / 2 := by norm_num [progressOf]
  have h10 : progressOf 100 10 = 1 / 10 := by norm_num [progressOf]
  have hrep : reportedProgress (runScan [] 100 0 (initState []) decreasingInputs).2
      = [(1 : ℚ) / 2, 1 / 10] := by rw [hstep, h50, h10]
  refine ⟨hrep, fun hchain => ?_⟩
  rw [hrep] at hchain
  have h12 := (List.chain'_cons.mp hchain).1
  norm_num at h12

/-- A batch sequence with non-decreasing cursors followed by the
sentinel. -/
def increasingInputs : List TimedResponse :=
  [⟨Response.batch (some 10) none, 1⟩, ⟨Response.batch (some 50) none, 2⟩,
   ⟨Response.tip, 3⟩]

/-- C5 witness: the amended statement evaluated on a height-100 scan
receiving cursors 10 then 50 then the sentinel. -/
theorem progress_monotone_witness :
    ((1 : ℚ) / 10) ∈ reportedProgress (runScan [] 100 0 (initState []) increasingInputs).2 ∧
    ((1 : ℚ) / 10) ≤ 1 ∧
    List.Chain' (· ≤ ·)
      (reportedProgress (runScan [] 100 0 (initState []) increasingInputs).2) := by
  have hstep : reportedProgress (runScan [] 100 0 (initState []) increasingInputs).2
      = [progressOf 100 10, progressOf 100 50, 1] := rfl
  have h10 : progressOf 100 10 = 1 / 10 := by norm_num [progressOf]
  have hmem : ((1 : ℚ) / 10)
      ∈ reportedProgress (runScan [] 100 0 (initState []) increasingInputs).2 := by
    rw [hstep, h10]
    exact List.mem_cons_self _ _
  refine ⟨hmem, ?_, ?_⟩
  · exact (progress_clamped_and_monotone_of_cursor_monotone [] 100 0 (initState [])).1
      increasingInputs _ hmem
  · exact (progress_clamped_and_monotone_of_cursor_monotone [] 100 0 (initState [])).2
      increasingInputs
      (by
        have hn : scanNBs increasingInputs = [10, 50] := rfl
        rw [hn]
        exact List.chain'_cons.mpr ⟨by norm_num, List.chain'_singleton 50⟩)

/-- C9 witness: the throughput computation evaluated at a concrete
iteration (elapsed 7 ms, a batch advancing the cursor to 2). -/
theorem throughput_floored_divisor_witness :
    (2 : Nat) ≠ 0 ∧
    ((runScan [] 100 0 (initState []) [⟨Response.batch (some 2) none, 7⟩]).2).head?
      = some (IterEvent.stats (progressOf 100 2) (processLogs [] (initState []).counts none)
          (eventsPerSecond (getNat (processLogs [] (initState []).counts none) "Total")
            0 7)) :=
  ⟨by decide,
   (throughput_floored_divisor 0 7 0).2.2 [] 100 (initState []) none [] 2 (by decide)⟩

end Logtui
